import Mathlib

/-!
Verification of the fuel-stop optimization engine of `django-route-optimizer`
(`utils/fuel_optimization.py`), shallowly embedded in Lean 4.

Modelling conventions:
* Python floats and Decimals are modelled over a `LinearOrderedField`
  (instantiated at `ℚ` for executable checks and at `ℝ` for facts about the
  geodesic distance function).
* `geopy.distance.geodesic(...).miles` is an external library call; the
  selection logic is therefore parametrized by an arbitrary distance oracle
  `dist`.  Where the actual geometry of the Earth matters, the spec's own
  definition ("great-circle distance between two latitude/longitude points,
  in miles") is modelled on the mean-radius sphere (`greatCircleMiles`).
* The Django ORM range query and the Django cache are modelled as an explicit
  station list with inclusive range filtering and a key-indexed partial map;
  observable store/cache interactions are returned as an event trace.
* Python list indexing is totalized with `getD`; every theorem that depends on
  positions only uses in-range indices.
-/

namespace RouteOptimizer

/-- A fuel station record, as produced by
`FuelData.objects...values('id', 'truckstop_name', 'retail_price', 'latitude',
'longitude', 'city', 'state')` (the unused `id` is dropped). -/
structure Station (α : Type) where
  truckstop_name : String
  retail_price : α
  latitude : α
  longitude : α
  city : String
  state : String
  deriving DecidableEq, Repr

/-- The fuel-stop dictionary built by `find_nearest_cheapest_stations`
(the nested `location` dict is flattened to `lat`/`lng`). -/
structure FuelStop (α : Type) where
  name : String
  price : α
  lat : α
  lng : α
  city : String
  state : String
  distance_from_route : α
  deriving DecidableEq, Repr

/-- The configuration state stored by `FuelOptimizer.__init__`. -/
structure FuelOptimizer (α : Type) where
  miles_per_gallon : α
  segment_distance : α
  search_radius : α
  buffer_degrees : α
  deriving DecidableEq, Repr

/-- Constructor `FuelOptimizer.__init__`: stores the three parameters and computes
`buffer_degrees = search_radius / 69`.  The Python constructor has no
validation and no failure path, so the embedding is a total function. -/
def FuelOptimizer.init {α : Type} [LinearOrderedField α]
    (miles_per_gallon segment_distance search_radius : α) : FuelOptimizer α :=
  ⟨miles_per_gallon, segment_distance, search_radius, search_radius / 69⟩

/-- One element of the `steps` list: `step['distance']` and
`step['way_points']`. -/
structure Step (α : Type) where
  distance : α
  way_points : List Nat
  deriving DecidableEq, Repr

variable {α : Type} [LinearOrderedField α]

/-- Checkpoint emitted for a step: `(route_geometry[key_index][1], route_geometry[key_index][0])` where
`key_index = step['way_points'][-1]`; geometry entries store `(lng, lat)`
pairs, so the emitted checkpoint is `(lat, lng)`. -/
def stepCheckpoint (geo : List (α × α)) (step : Step α) : α × α :=
  let g := geo.getD (step.way_points.getLastD 0) (0, 0)
  (g.2, g.1)

/-- Embedding of `FuelOptimizer.calculate_check_points`.  The `route_distance` argument is
accepted and ignored, exactly as in the Python code. -/
def calculate_check_points (opt : FuelOptimizer α) (route_distance : α)
    (steps : List (Step α)) (geo : List (α × α)) : List (α × α) :=
  let r := steps.foldl
    (fun a step =>
      let cum := a.2 + step.distance
      if opt.segment_distance ≤ cum then (a.1 ++ [stepCheckpoint geo step], 0)
      else (a.1, cum))
    ([], 0)
  if opt.segment_distance / 2 < r.2 ∧ steps ≠ [] then
    r.1 ++ [stepCheckpoint geo (steps.getLastD ⟨0, []⟩)]
  else r.1

/-- The loop of the Checkpoint Planner as worded by the spec (claim C3):
walk the steps keeping an accumulator; on reaching `segment_distance` emit the
step's last waypoint (swapped to `(lat, lng)`) and reset to 0.  Returns the
emitted checkpoints together with the final accumulated distance. -/
def claimLoop (seg : α) (geo : List (α × α)) :
    List (Step α) → α → List (α × α) × α
  | [], acc => ([], acc)
  | step :: rest, acc =>
    let acc2 := acc + step.distance
    if seg ≤ acc2 then
      let r := claimLoop seg geo rest 0
      (stepCheckpoint geo step :: r.1, r.2)
    else claimLoop seg geo rest acc2

/-- The Checkpoint Planner as worded by the spec (claim C3): the loop above,
then one trailing checkpoint at the last step's last waypoint iff the
remaining accumulated distance is strictly greater than `segment_distance / 2`
and the step list is non-empty. -/
def claimCheckPoints (seg : α) (geo : List (α × α)) (steps : List (Step α)) :
    List (α × α) :=
  let r := claimLoop seg geo steps 0
  if seg / 2 < r.2 ∧ steps ≠ [] then
    r.1 ++ [stepCheckpoint geo (steps.getLastD ⟨0, []⟩)]
  else r.1

lemma foldl_eq_claimLoop (opt : FuelOptimizer α) (geo : List (α × α)) :
    ∀ (steps : List (Step α)) (cps : List (α × α)) (acc : α),
      steps.foldl
        (fun a step =>
          let cum := a.2 + step.distance
          if opt.segment_distance ≤ cum then (a.1 ++ [stepCheckpoint geo step], 0)
          else (a.1, cum))
        (cps, acc)
      = (cps ++ (claimLoop opt.segment_distance geo steps acc).1,
         (claimLoop opt.segment_distance geo steps acc).2) := by
  intro steps
  induction steps with
  | nil => intro cps acc; simp [claimLoop]
  | cons step rest ih =>
    intro cps acc
    by_cases h : opt.segment_distance ≤ acc + step.distance
    · simp only [List.foldl_cons, claimLoop, if_pos h, ih]
      simp
    · simp only [List.foldl_cons, claimLoop, if_neg h, ih]

lemma calculate_eq_claim (opt : FuelOptimizer α) (rd : α)
    (steps : List (Step α)) (geo : List (α × α)) :
    calculate_check_points opt rd steps geo =
      claimCheckPoints opt.segment_distance geo steps := by
  unfold calculate_check_points claimCheckPoints
  rw [foldl_eq_claimLoop]
  simp

/-- Loop invariant of the planner: every checkpoint emitted inside the loop
consumes at least `segment_distance` of accumulated step distance, and the
accumulator stays non-negative. -/
lemma claimLoop_invariant (seg : α) (geo : List (α × α)) (hseg : 0 < seg) :
    ∀ (steps : List (Step α)) (acc : α), 0 ≤ acc → (∀ s ∈ steps, 0 ≤ s.distance) →
      seg * ((claimLoop seg geo steps acc).1.length : α) + (claimLoop seg geo steps acc).2
        ≤ acc + (steps.map Step.distance).sum
      ∧ 0 ≤ (claimLoop seg geo steps acc).2 := by
  intro steps
  induction steps with
  | nil => intro acc h0 _; simp [claimLoop, h0]
  | cons step rest ih =>
    intro acc h0 hd
    have hstep : 0 ≤ step.distance := hd step (by simp)
    have hrest : ∀ s ∈ rest, 0 ≤ s.distance := fun s hs => hd s (by simp [hs])
    by_cases h : seg ≤ acc + step.distance
    · have ih0 := ih 0 le_rfl hrest
      simp only [claimLoop, if_pos h, List.length_cons, List.map_cons, List.sum_cons]
      refine ⟨?_, ih0.2⟩
      push_cast
      nlinarith [ih0.1]
    · have ih2 := ih (acc + step.distance) (add_nonneg h0 hstep) hrest
      simp only [claimLoop, if_neg h, List.map_cons, List.sum_cons]
      refine ⟨?_, ih2.2⟩
      nlinarith [ih2.1]

/-- Example inputs from the spec's test properties: three steps of distance
150 covering waypoints `0‥3` of a four-point geometry. -/
def steps150 : List (Step ℚ) := [⟨150, [0, 1]⟩, ⟨150, [1, 2]⟩, ⟨150, [2, 3]⟩]

/-- Geometry for the example, stored as `(lng, lat)` pairs. -/
def geoEx : List (ℚ × ℚ) := [(10, 20), (11, 21), (12, 22), (13, 23)]

/-- Claim C3: `calculate_check_points` walks the steps in order with an
accumulator starting at 0; whenever the accumulator reaches or exceeds
`segment_distance` it appends `(geometry[last_waypoint][1],
geometry[last_waypoint][0])` — swapping the stored `[lng, lat]` to
`(lat, lng)` — and resets the accumulator; after the loop it appends one
trailing checkpoint at the last step's last waypoint iff the remaining
accumulated distance strictly exceeds `segment_distance / 2` and the step list
is non-empty.  Steps `[150, 150, 150]` with `segment_distance = 400` yield
exactly one checkpoint, at step 3's final waypoint. -/
theorem C3_planner_characterization :
    (∀ (opt : FuelOptimizer ℚ) (rd : ℚ) (steps : List (Step ℚ)) (geo : List (ℚ × ℚ)),
        0 < opt.segment_distance →
        calculate_check_points opt rd steps geo =
          claimCheckPoints opt.segment_distance geo steps)
    ∧ calculate_check_points (FuelOptimizer.init 10 400 15) 450 steps150 geoEx = [(23, 13)] :=
  ⟨fun opt rd steps geo _ => calculate_eq_claim opt rd steps geo,
   by norm_num [calculate_check_points, steps150, geoEx, stepCheckpoint, FuelOptimizer.init]⟩

/-- Witness for C3 at `segment_distance = 400`, steps `[150, 150, 150]`. -/
theorem C3_planner_characterization_witness :
    calculate_check_points (FuelOptimizer.init (10 : ℚ) 400 15) 450 steps150 geoEx =
      claimCheckPoints (FuelOptimizer.init (10 : ℚ) 400 15).segment_distance geoEx steps150 :=
  C3_planner_characterization.1 (FuelOptimizer.init 10 400 15) 450 steps150 geoEx (by decide)

/-- Claim C7: with non-negative step distances and positive
`segment_distance`, the planner produces at most
`ceil(total_distance / segment_distance)` checkpoints. -/
theorem C7_count_bound (opt : FuelOptimizer ℚ) (rd : ℚ) (steps : List (Step ℚ))
    (geo : List (ℚ × ℚ)) (hseg : 0 < opt.segment_distance)
    (hd : ∀ s ∈ steps, 0 ≤ s.distance) :
    ((calculate_check_points opt rd steps geo).length : ℤ) ≤
      ⌈(steps.map Step.distance).sum / opt.segment_distance⌉ := by
  rw [calculate_eq_claim]
  obtain ⟨hsum, hpos⟩ :=
    claimLoop_invariant opt.segment_distance geo hseg steps 0 le_rfl hd
  rw [zero_add] at hsum
  unfold claimCheckPoints
  by_cases hc : opt.segment_distance / 2 < (claimLoop opt.segment_distance geo steps 0).2
      ∧ steps ≠ []
  · rw [if_pos hc]
    have hlt : (((claimLoop opt.segment_distance geo steps 0).1.length : ℚ)) <
        (steps.map Step.distance).sum / opt.segment_distance := by
      rw [lt_div_iff hseg]
      nlinarith [hc.1]
    have hceil : ((claimLoop opt.segment_distance geo steps 0).1.length : ℤ) <
        ⌈(steps.map Step.distance).sum / opt.segment_distance⌉ :=
      Int.lt_ceil.mpr (by exact_mod_cast hlt)
    simp only [List.length_append, List.length_singleton]
    push_cast
    omega
  · rw [if_neg hc]
    have hle : (((claimLoop opt.segment_distance geo steps 0).1.length : ℚ)) ≤
        (steps.map Step.distance).sum / opt.segment_distance := by
      rw [le_div_iff hseg]
      nlinarith
    have := le_trans hle (Int.le_ceil _)
    exact_mod_cast this

/-- Witness for C7 on the `[150, 150, 150]` example. -/
theorem C7_count_bound_witness :
    ((calculate_check_points (FuelOptimizer.init (10 : ℚ) 400 15) 450 steps150 geoEx).length : ℤ) ≤
      ⌈(steps150.map Step.distance).sum /
        (FuelOptimizer.init (10 : ℚ) 400 15).segment_distance⌉ :=
  C7_count_bound (FuelOptimizer.init 10 400 15) 450 steps150 geoEx (by decide) (by decide)

/-- The candidate tuples built by `find_nearest_cheapest_stations`:
`(distance, float(station['retail_price']), station)`. -/
abbrev Cand (α : Type) := α × α × Station α

/-- Strict order of the Python sort key `lambda x: (x[1], x[0])`:
price first, distance as tie-break. -/
def keyLt (x y : Cand α) : Prop :=
  x.2.1 < y.2.1 ∨ (x.2.1 = y.2.1 ∧ x.1 < y.1)

/-- Reflexive version of the sort-key order. -/
def keyLe (x y : Cand α) : Prop :=
  x.2.1 < y.2.1 ∨ (x.2.1 = y.2.1 ∧ x.1 ≤ y.1)

instance (x y : Cand α) : Decidable (keyLt x y) := by
  unfold keyLt; infer_instance

instance (x y : Cand α) : Decidable (keyLe x y) := by
  unfold keyLe; infer_instance

/-- Stage-1 and stage-2 filtering of `find_nearest_cheapest_stations`: the
rectangular prefilter against `buffer_degrees`, then the exact distance test
against `search_radius` using the injected distance oracle `dist` (the code
calls `geodesic(check_point, (lat, lng)).miles`).  Survivors are collected in
candidate order as `(distance, price, station)` tuples. -/
def nearbyStations (opt : FuelOptimizer α) (dist : α × α → α × α → α)
    (cp : α × α) (stations : List (Station α)) : List (Cand α) :=
  stations.filterMap fun st =>
    if |st.latitude - cp.1| ≤ opt.buffer_degrees ∧
        |st.longitude - cp.2| ≤ opt.buffer_degrees then
      if dist cp (st.latitude, st.longitude) ≤ opt.search_radius then
        some (dist cp (st.latitude, st.longitude), st.retail_price, st)
      else none
    else none

/-- Left fold computing the first element of the stably sorted candidate
list: keep the current best and replace it only on a strictly smaller key.
This is exactly `sorted(nearby_stations, key=lambda x: (x[1], x[0]))[0]`,
since Python's stable sort puts the earliest minimal-key element first. -/
def stableMin (x : Cand α) (l : List (Cand α)) : Cand α :=
  l.foldl (fun b y => if keyLt y b then y else b) x

/-- Python's `sorted(...)[0]` guarded by `if nearby_stations:`. -/
def pickBest : List (Cand α) → Option (Cand α)
  | [] => none
  | x :: xs => some (stableMin x xs)

/-- The fuel-stop dictionary appended for a selected candidate. -/
def mkFuelStop (st : Station α) (d : α) : FuelStop α :=
  ⟨st.truckstop_name, st.retail_price, st.latitude, st.longitude, st.city, st.state, d⟩

/-- The per-checkpoint body of `find_nearest_cheapest_stations`: filter, sort
by `(price, distance)`, take the first survivor if any. -/
def selectForCheckpoint (opt : FuelOptimizer α) (dist : α × α → α × α → α)
    (cp : α × α) (stations : List (Station α)) : Option (FuelStop α) :=
  match pickBest (nearbyStations opt dist cp stations) with
  | none => none
  | some c => some (mkFuelStop c.2.2 c.1)

/-- Embedding of `FuelOptimizer.find_nearest_cheapest_stations`: loop over the checkpoints
accumulating the fuel stops and
`total_cost += (segment_distance / miles_per_gallon) * price`. -/
def find_nearest_cheapest_stations (opt : FuelOptimizer α)
    (dist : α × α → α × α → α) (cps : List (α × α))
    (stations : List (Station α)) : List (FuelStop α) × α :=
  cps.foldl
    (fun acc cp =>
      match selectForCheckpoint opt dist cp stations with
      | none => acc
      | some fs =>
        (acc.1 ++ [fs], acc.2 + opt.segment_distance / opt.miles_per_gallon * fs.price))
    ([], 0)

lemma keyLe_refl (x : Cand α) : keyLe x x := Or.inr ⟨rfl, le_rfl⟩

lemma keyLe_of_keyLt {x y : Cand α} (h : keyLt x y) : keyLe x y := by
  rcases h with h | ⟨e, d⟩
  · exact Or.inl h
  · exact Or.inr ⟨e, le_of_lt d⟩

lemma keyLe_trans {x y z : Cand α} (h1 : keyLe x y) (h2 : keyLe y z) : keyLe x z := by
  rcases h1 with h1 | ⟨e1, d1⟩ <;> rcases h2 with h2 | ⟨e2, d2⟩
  · exact Or.inl (lt_trans h1 h2)
  · exact Or.inl (e2 ▸ h1)
  · exact Or.inl (e1 ▸ h2)
  · exact Or.inr ⟨e1.trans e2, le_trans d1 d2⟩

lemma keyLt_of_keyLt_of_keyLe {x y z : Cand α} (h1 : keyLt x y) (h2 : keyLe y z) :
    keyLt x z := by
  rcases h1 with h1 | ⟨e1, d1⟩ <;> rcases h2 with h2 | ⟨e2, d2⟩
  · exact Or.inl (lt_trans h1 h2)
  · exact Or.inl (e2 ▸ h1)
  · exact Or.inl (e1 ▸ h2)
  · exact Or.inr ⟨e1.trans e2, lt_of_lt_of_le d1 d2⟩

lemma keyLt_of_keyLe_of_keyLt {x y z : Cand α} (h1 : keyLe x y) (h2 : keyLt y z) :
    keyLt x z := by
  rcases h1 with h1 | ⟨e1, d1⟩ <;> rcases h2 with h2 | ⟨e2, d2⟩
  · exact Or.inl (lt_trans h1 h2)
  · exact Or.inl (e2 ▸ h1)
  · exact Or.inl (e1 ▸ h2)
  · exact Or.inr ⟨e1.trans e2, lt_of_le_of_lt d1 d2⟩

lemma keyLe_of_not_keyLt {x y : Cand α} (h : ¬ keyLt x y) : keyLe y x := by
  unfold keyLt at h
  push_neg at h
  rcases lt_trichotomy y.2.1 x.2.1 with hlt | heq | hgt
  · exact Or.inl hlt
  · exact Or.inr ⟨heq, h.2 heq.symm⟩
  · exact absurd hgt (not_lt.mpr h.1)

lemma stableMin_cons (x y : Cand α) (l : List (Cand α)) :
    stableMin x (y :: l) = stableMin (if keyLt y x then y else x) l := rfl

lemma stableMin_mem (x : Cand α) (l : List (Cand α)) : stableMin x l ∈ x :: l := by
  induction l generalizing x with
  | nil => simp [stableMin]
  | cons y ys ih =>
    rw [stableMin_cons]
    by_cases h : keyLt y x
    · rw [if_pos h]
      have := ih y
      simp only [List.mem_cons] at this ⊢
      tauto
    · rw [if_neg h]
      have := ih x
      simp only [List.mem_cons] at this ⊢
      tauto

lemma stableMin_le (x : Cand α) (l : List (Cand α)) :
    ∀ y ∈ x :: l, keyLe (stableMin x l) y := by
  induction l generalizing x with
  | nil =>
    intro y hy
    simp only [List.mem_singleton] at hy
    subst hy
    exact keyLe_refl y
  | cons z zs ih =>
    intro y hy
    rw [stableMin_cons]
    by_cases h : keyLt z x
    · rw [if_pos h]
      rcases List.mem_cons.mp hy with hx | hy2
      · rw [hx]
        exact keyLe_trans (ih z z (by simp)) (keyLe_of_keyLt h)
      · exact ih z y hy2
    · rw [if_neg h]
      rcases List.mem_cons.mp hy with hx | hy2
      · rw [hx]
        exact ih x x (by simp)
      · rcases List.mem_cons.mp hy2 with hz | hy3
        · rw [hz]
          exact keyLe_trans (ih x x (by simp)) (keyLe_of_not_keyLt h)
        · exact ih x y (by simp [hy3])

/-- The fold keeps the earliest element achieving the minimal key: everything
strictly before the returned element in the survivor list has a strictly
larger key.  This is the stability of Python's `sorted`. -/
lemma stableMin_first (x : Cand α) (l : List (Cand α)) :
    ∃ i, ∃ hi : i < (x :: l).length, (x :: l).get ⟨i, hi⟩ = stableMin x l ∧
      ∀ y ∈ (x :: l).take i, keyLt (stableMin x l) y := by
  induction l generalizing x with
  | nil => exact ⟨0, by simp, by simp [stableMin], by simp⟩
  | cons z zs ih =>
    rw [stableMin_cons]
    by_cases h : keyLt z x
    · rw [if_pos h]
      obtain ⟨i, hi, hget, hbefore⟩ := ih z
      refine ⟨i + 1, by simpa using hi, by simpa using hget, ?_⟩
      intro y hy
      rw [List.take_succ_cons] at hy
      rcases List.mem_cons.mp hy with rfl | hy2
      · exact keyLt_of_keyLe_of_keyLt (stableMin_le z zs z (by simp)) h
      · exact hbefore y hy2
    · rw [if_neg h]
      obtain ⟨i, hi, hget, hbefore⟩ := ih x
      cases i with
      | zero => exact ⟨0, by simp, by simpa using hget, by simp⟩
      | succ j =>
        refine ⟨j + 2, ?_, ?_, ?_⟩
        · simp only [List.length_cons] at hi ⊢; omega
        · simpa using hget
        · intro y hy
          rw [List.take_succ_cons, List.take_succ_cons] at hy
          have hx : keyLt (stableMin x zs) x := by
            have := hbefore x (by simp [List.take_succ_cons])
            exact this
          rcases List.mem_cons.mp hy with rfl | hy2
          · exact hx
          · rcases List.mem_cons.mp hy2 with rfl | hy3
            · exact keyLt_of_keyLt_of_keyLe hx (keyLe_of_not_keyLt h)
            · refine hbefore y ?_
              rw [List.take_succ_cons]
              exact List.mem_cons_of_mem x hy3

lemma pickBest_spec {l : List (Cand α)} {c : Cand α} (h : pickBest l = some c) :
    c ∈ l ∧ ∀ y ∈ l, keyLe c y := by
  cases l with
  | nil => simp [pickBest] at h
  | cons x xs =>
    simp only [pickBest, Option.some.injEq] at h
    subst h
    exact ⟨stableMin_mem x xs, fun y hy => stableMin_le x xs y hy⟩

lemma pickBest_first {l : List (Cand α)} {c : Cand α} (h : pickBest l = some c) :
    ∃ i, ∃ hi : i < l.length, l.get ⟨i, hi⟩ = c ∧ ∀ y ∈ l.take i, keyLt c y := by
  cases l with
  | nil => simp [pickBest] at h
  | cons x xs =>
    simp only [pickBest, Option.some.injEq] at h
    subst h
    exact stableMin_first x xs

lemma mem_nearbyStations {opt : FuelOptimizer α} {dist : α × α → α × α → α}
    {cp : α × α} {stations : List (Station α)} {c : Cand α}
    (h : c ∈ nearbyStations opt dist cp stations) :
    ∃ st ∈ stations, c = (dist cp (st.latitude, st.longitude), st.retail_price, st) ∧
      dist cp (st.latitude, st.longitude) ≤ opt.search_radius ∧
      |st.latitude - cp.1| ≤ opt.buffer_degrees ∧
      |st.longitude - cp.2| ≤ opt.buffer_degrees := by
  unfold nearbyStations at h
  rw [List.mem_filterMap] at h
  obtain ⟨st, hst, hc⟩ := h
  refine ⟨st, hst, ?_⟩
  split_ifs at hc with h1 h2
  · rw [Option.some.injEq] at hc
    exact ⟨hc.symm, h2, h1.1, h1.2⟩

lemma selectForCheckpoint_spec {opt : FuelOptimizer α} {dist : α × α → α × α → α}
    {cp : α × α} {stations : List (Station α)} {fs : FuelStop α}
    (h : selectForCheckpoint opt dist cp stations = some fs) :
    ∃ c ∈ nearbyStations opt dist cp stations,
      fs = mkFuelStop c.2.2 c.1 ∧ ∀ y ∈ nearbyStations opt dist cp stations, keyLe c y := by
  unfold selectForCheckpoint at h
  cases hp : pickBest (nearbyStations opt dist cp stations) with
  | none => rw [hp] at h; cases h
  | some c =>
    rw [hp, Option.some.injEq] at h
    obtain ⟨hmem, hmin⟩ := pickBest_spec hp
    exact ⟨c, hmem, h.symm, hmin⟩

/-- Claim C1: among the stations that survive both the rectangular prefilter
and the exact radius filter, `find_nearest_cheapest_stations` selects the
lexicographic minimum of `(price ascending, distance ascending)`: price is the
primary key and distance breaks price ties. -/
theorem C1_lex_min_selection (opt : FuelOptimizer α) (dist : α × α → α × α → α)
    (cp : α × α) (stations : List (Station α)) (fs : FuelStop α)
    (h : selectForCheckpoint opt dist cp stations = some fs) :
    ∃ c ∈ nearbyStations opt dist cp stations,
      fs = mkFuelStop c.2.2 c.1 ∧
      ∀ y ∈ nearbyStations opt dist cp stations,
        c.2.1 < y.2.1 ∨ (c.2.1 = y.2.1 ∧ c.1 ≤ y.1) :=
  selectForCheckpoint_spec h

/-- Stations for the spec's tie-break example: equal price `$3.10`, distances
5 mi and 2 mi away from the origin checkpoint (the distance oracle
distinguishes them by longitude). -/
def stTie1 : Station ℚ := ⟨"A", 31/10, 0, 1/1000, "CityA", "ST"⟩

/-- Second tie-break example station, the nearer one. -/
def stTie2 : Station ℚ := ⟨"B", 31/10, 0, 2/1000, "CityB", "ST"⟩

/-- Distance oracle for the tie-break example: 5 mi to `stTie1`, 2 mi to
`stTie2`. -/
def distTie : ℚ × ℚ → ℚ × ℚ → ℚ := fun _ q => if q.2 = 1/1000 then 5 else 2

/-- Witness for C1: with prices `$3.10`/`$3.10` at 5 mi/2 mi, selection picks
the 2 mi station. -/
theorem C1_lex_min_selection_witness :
    ∃ c ∈ nearbyStations (FuelOptimizer.init (10 : ℚ) 400 15) distTie (0, 0) [stTie1, stTie2],
      mkFuelStop stTie2 2 = mkFuelStop c.2.2 c.1 ∧
      ∀ y ∈ nearbyStations (FuelOptimizer.init (10 : ℚ) 400 15) distTie (0, 0) [stTie1, stTie2],
        c.2.1 < y.2.1 ∨ (c.2.1 = y.2.1 ∧ c.1 ≤ y.1) :=
  C1_lex_min_selection (FuelOptimizer.init 10 400 15) distTie (0, 0) [stTie1, stTie2]
    (mkFuelStop stTie2 2)
    (by norm_num [selectForCheckpoint, nearbyStations, pickBest, stableMin, keyLt,
      FuelOptimizer.init, stTie1, stTie2, distTie, mkFuelStop, List.filterMap_cons,
      abs_of_nonneg])

/-- Claim C10: on an exact tie in both price and distance the selector keeps
the survivor that appears earliest in the candidate list (Python's sort is
stable): the returned candidate is located at an index all of whose
predecessors have strictly larger `(price, distance)` keys, and it is minimal
among all survivors. -/
theorem C10_stable_tie_break (opt : FuelOptimizer α) (dist : α × α → α × α → α)
    (cp : α × α) (stations : List (Station α)) (c : Cand α)
    (h : pickBest (nearbyStations opt dist cp stations) = some c) :
    c ∈ nearbyStations opt dist cp stations ∧
    (∀ y ∈ nearbyStations opt dist cp stations, keyLe c y) ∧
    ∃ i, ∃ hi : i < (nearbyStations opt dist cp stations).length,
      (nearbyStations opt dist cp stations).get ⟨i, hi⟩ = c ∧
      ∀ y ∈ (nearbyStations opt dist cp stations).take i, keyLt c y := by
  obtain ⟨hmem, hmin⟩ := pickBest_spec h
  exact ⟨hmem, hmin, pickBest_first h⟩

/-- Stations for the exact-tie example: same price, same distance, different
names. -/
def stDup1 : Station ℚ := ⟨"First", 3, 0, 0, "CityA", "ST"⟩

/-- Second exact-tie example station. -/
def stDup2 : Station ℚ := ⟨"Second", 3, 0, 0, "CityB", "ST"⟩

/-- Witness for C10 at an exact price/distance tie. -/
theorem C10_stable_tie_break_witness :
    (3, (3 : ℚ), stDup1) ∈ nearbyStations (FuelOptimizer.init (10 : ℚ) 400 15)
        (fun _ _ => 3) (0, 0) [stDup1, stDup2] ∧
    (∀ y ∈ nearbyStations (FuelOptimizer.init (10 : ℚ) 400 15)
        (fun _ _ => 3) (0, 0) [stDup1, stDup2], keyLe (3, (3 : ℚ), stDup1) y) ∧
    ∃ i, ∃ hi : i < (nearbyStations (FuelOptimizer.init (10 : ℚ) 400 15)
        (fun _ _ => 3) (0, 0) [stDup1, stDup2]).length,
      (nearbyStations (FuelOptimizer.init (10 : ℚ) 400 15)
        (fun _ _ => 3) (0, 0) [stDup1, stDup2]).get ⟨i, hi⟩ = (3, (3 : ℚ), stDup1) ∧
      ∀ y ∈ (nearbyStations (FuelOptimizer.init (10 : ℚ) 400 15)
        (fun _ _ => 3) (0, 0) [stDup1, stDup2]).take i, keyLt (3, (3 : ℚ), stDup1) y :=
  C10_stable_tie_break (FuelOptimizer.init 10 400 15) (fun _ _ => 3) (0, 0)
    [stDup1, stDup2] (3, 3, stDup1)
    (by norm_num [pickBest, nearbyStations, stableMin, keyLt,
      FuelOptimizer.init, stDup1, stDup2, List.filterMap_cons, abs_of_nonneg])

/-- Shifting the accumulator of the checkpoint fold: folding from `(s, t)`
appends/adds what folding from `([], 0)` produces. -/
lemma find_nearest_shift (opt : FuelOptimizer α) (dist : α × α → α × α → α)
    (stations : List (Station α)) :
    ∀ (cps : List (α × α)) (s : List (FuelStop α)) (t : α),
      cps.foldl
        (fun acc cp =>
          match selectForCheckpoint opt dist cp stations with
          | none => acc
          | some fs =>
            (acc.1 ++ [fs], acc.2 + opt.segment_distance / opt.miles_per_gallon * fs.price))
        (s, t)
      = (s ++ (find_nearest_cheapest_stations opt dist cps stations).1,
         t + (find_nearest_cheapest_stations opt dist cps stations).2) := by
  intro cps
  induction cps with
  | nil => intro s t; simp [find_nearest_cheapest_stations]
  | cons cp rest ih =>
    intro s t
    unfold find_nearest_cheapest_stations
    simp only [List.foldl_cons]
    cases hsel : selectForCheckpoint opt dist cp stations with
    | none =>
      simp only [hsel]
      rw [ih s t, ih [] 0]
      simp [find_nearest_cheapest_stations]
    | some fs =>
      simp only [hsel]
      rw [ih (s ++ [fs]) (t + opt.segment_distance / opt.miles_per_gallon * fs.price),
        ih ([] ++ [fs]) (0 + opt.segment_distance / opt.miles_per_gallon * fs.price)]
      unfold find_nearest_cheapest_stations
      rw [Prod.ext_iff]
      constructor
      · simp
      · simp
        ring

/-- Every fuel stop in the result was produced by `selectForCheckpoint` at one
of the checkpoints. -/
lemma find_nearest_sound (opt : FuelOptimizer α) (dist : α × α → α × α → α)
    (stations : List (Station α)) :
    ∀ (cps : List (α × α)) (fs : FuelStop α),
      fs ∈ (find_nearest_cheapest_stations opt dist cps stations).1 →
      ∃ cp ∈ cps, selectForCheckpoint opt dist cp stations = some fs := by
  intro cps
  induction cps with
  | nil => intro fs h; simp [find_nearest_cheapest_stations] at h
  | cons cp rest ih =>
    intro fs h
    unfold find_nearest_cheapest_stations at h
    simp only [List.foldl_cons] at h
    cases hsel : selectForCheckpoint opt dist cp stations with
    | none =>
      rw [hsel] at h
      obtain ⟨cp', hcp', hsel'⟩ := ih fs h
      exact ⟨cp', by simp [hcp'], hsel'⟩
    | some fs0 =>
      rw [hsel] at h
      rw [find_nearest_shift] at h
      simp only [List.nil_append, List.mem_append, List.mem_singleton] at h
      rcases h with h | h
      · exact ⟨cp, by simp, by rw [hsel, h]⟩
      · obtain ⟨cp', hcp', hsel'⟩ := ih fs h
        exact ⟨cp', by simp [hcp'], hsel'⟩

/-- The accumulated total equals the sum of the per-stop contributions
`(segment_distance / miles_per_gallon) * price` over exactly the produced
stops. -/
lemma cost_eq_sum (opt : FuelOptimizer α) (dist : α × α → α × α → α)
    (stations : List (Station α)) :
    ∀ cps : List (α × α),
      (find_nearest_cheapest_stations opt dist cps stations).2 =
        ((find_nearest_cheapest_stations opt dist cps stations).1.map
          (fun fs => opt.segment_distance / opt.miles_per_gallon * fs.price)).sum := by
  intro cps
  induction cps with
  | nil => simp [find_nearest_cheapest_stations]
  | cons cp rest ih =>
    unfold find_nearest_cheapest_stations
    simp only [List.foldl_cons]
    cases hsel : selectForCheckpoint opt dist cp stations with
    | none =>
      simp only [hsel]
      exact ih
    | some fs =>
      simp only [hsel]
      rw [find_nearest_shift]
      simp only [List.nil_append, List.map_append, List.sum_append, List.map_cons,
        List.map_nil, List.sum_cons, List.sum_nil]
      rw [← ih]
      unfold find_nearest_cheapest_stations
      ring

/-- Claim C2: every `FuelStop` returned for a checkpoint comes from a
candidate station whose oracle distance from that checkpoint is at most
`search_radius`, and its `distance_from_route` field is exactly that
distance (the stop equals `mkFuelStop st d` for that distance `d`). -/
theorem C2_radius_bound (opt : FuelOptimizer α) (dist : α × α → α × α → α)
    (cps : List (α × α)) (stations : List (Station α)) (fs : FuelStop α)
    (h : fs ∈ (find_nearest_cheapest_stations opt dist cps stations).1) :
    ∃ cp ∈ cps, ∃ st ∈ stations,
      dist cp (st.latitude, st.longitude) ≤ opt.search_radius ∧
      fs = mkFuelStop st (dist cp (st.latitude, st.longitude)) := by
  obtain ⟨cp, hcp, hsel⟩ := find_nearest_sound opt dist stations cps fs h
  obtain ⟨c, hc, hfs, _⟩ := selectForCheckpoint_spec hsel
  obtain ⟨st, hst, hceq, hrad, _⟩ := mem_nearbyStations hc
  refine ⟨cp, hcp, st, hst, hrad, ?_⟩
  rw [hfs, hceq]

/-- Checkpoint at the origin for the cost example. -/
def cpO : ℚ × ℚ := (0, 0)

/-- The `$3.50` station of the spec's cost-arithmetic example, placed at the
origin. -/
def station350 : Station ℚ := ⟨"S350", 7/2, 0, 0, "City", "ST"⟩

/-- Distance oracle for the cost example: every station is 1 mile away. -/
def distOne : ℚ × ℚ → ℚ × ℚ → ℚ := fun _ _ => 1

lemma select350 :
    selectForCheckpoint (FuelOptimizer.init (10 : ℚ) 400 15) distOne cpO [station350] =
      some (mkFuelStop station350 1) := by
  norm_num [selectForCheckpoint, nearbyStations, pickBest, stableMin, FuelOptimizer.init,
    station350, cpO, distOne, mkFuelStop, List.filterMap_cons]

/-- Witness for C2 on the one-checkpoint, one-station example. -/
theorem C2_radius_bound_witness :
    ∃ cp ∈ [cpO], ∃ st ∈ [station350],
      distOne cp (st.latitude, st.longitude) ≤
        (FuelOptimizer.init (10 : ℚ) 400 15).search_radius ∧
      mkFuelStop station350 1 = mkFuelStop st (distOne cp (st.latitude, st.longitude)) :=
  C2_radius_bound (FuelOptimizer.init 10 400 15) distOne [cpO] [station350]
    (mkFuelStop station350 1)
    (by norm_num [find_nearest_cheapest_stations, selectForCheckpoint, nearbyStations,
      pickBest, stableMin, FuelOptimizer.init, station350, cpO, distOne, mkFuelStop,
      List.filterMap_cons])

lemma replicate_cost : ∀ n : ℕ,
    find_nearest_cheapest_stations (FuelOptimizer.init (10 : ℚ) 400 15) distOne
      (List.replicate n cpO) [station350]
    = (List.replicate n (mkFuelStop station350 1), 140 * (n : ℚ)) := by
  intro n
  induction n with
  | zero => simp [find_nearest_cheapest_stations]
  | succ k ih =>
    rw [List.replicate_succ]
    unfold find_nearest_cheapest_stations
    simp only [List.foldl_cons, select350]
    rw [find_nearest_shift, ih]
    rw [Prod.ext_iff]
    constructor
    · simp [List.replicate_succ]
    · simp only [FuelOptimizer.init, mkFuelStop, station350]
      push_cast
      ring

/-- Claim C4: the returned total cost is the sum over exactly the produced
stops of `(segment_distance / miles_per_gallon) * price`, independent of the
actual leg lengths; with `segment_distance = 400`, `miles_per_gallon = 10` and
`N` checkpoints each resolving to a `$3.50` station, the total is `140 * N`. -/
theorem C4_cost_formula :
    (∀ (opt : FuelOptimizer ℚ) (dist : ℚ × ℚ → ℚ × ℚ → ℚ) (cps : List (ℚ × ℚ))
        (stations : List (Station ℚ)),
      (find_nearest_cheapest_stations opt dist cps stations).2 =
        ((find_nearest_cheapest_stations opt dist cps stations).1.map
          (fun fs => opt.segment_distance / opt.miles_per_gallon * fs.price)).sum)
    ∧ ∀ n : ℕ,
      (find_nearest_cheapest_stations (FuelOptimizer.init (10 : ℚ) 400 15) distOne
        (List.replicate n cpO) [station350]).2 = 140 * n :=
  ⟨fun opt dist cps stations => cost_eq_sum opt dist stations cps,
   fun n => by rw [replicate_cost n]⟩

/-- Axis-aligned bounding box of a checkpoint set. -/
structure BBox (α : Type) where
  min_lat : α
  max_lat : α
  min_lng : α
  max_lng : α
  deriving DecidableEq, Repr

/-- Computes `min(check_lats), max(check_lats), min(check_lngs), max(check_lngs)` over
the non-empty checkpoint list `cp :: rest`. -/
def bboxOf (cp : α × α) (rest : List (α × α)) : BBox α :=
  ⟨(rest.map Prod.fst).foldl min cp.1, (rest.map Prod.fst).foldl max cp.1,
   (rest.map Prod.snd).foldl min cp.2, (rest.map Prod.snd).foldl max cp.2⟩

/-- The `:.4f` formatting used in the cache key, modelled as rounding to four
decimal places (the counterexamples only use values whose rounding is
unambiguous, where Python's float formatting agrees). -/
def round4 [FloorRing α] (x : α) : α := (round (x * 10000) : ℤ) / 10000

/-- The cache key: the code formats the four bounding-box corners to four
decimal places into a fixed-shape string; modelled as the tuple of rounded
corner coordinates — the constant text and separators make the string
determined by and injective in this tuple. -/
def cacheKey [FloorRing α] (b : BBox α) : α × α × α × α :=
  (round4 b.min_lat, round4 b.min_lng, round4 b.max_lat, round4 b.max_lng)

/-- The Django cache: a partial map from keys to previously stored station
lists. -/
def Cache (α : Type) : Type := (α × α × α × α) → Option (List (Station α))

/-- The station store query `FuelData.objects.filter(latitude__range=(min_lat - buf, max_lat + buf),
longitude__range=(min_lng - buf, max_lng + buf))` over a database list;
Django `__range` is inclusive on both ends. -/
def range_query (db : List (Station α)) (b : BBox α) (buf : α) : List (Station α) :=
  db.filter fun st =>
    decide (b.min_lat - buf ≤ st.latitude) && decide (st.latitude ≤ b.max_lat + buf) &&
    decide (b.min_lng - buf ≤ st.longitude) && decide (st.longitude ≤ b.max_lng + buf)

/-- Observable interactions with the cache and the station store. -/
inductive CacheEvent (α : Type) where
  | get (key : α × α × α × α) : CacheEvent α
  | storeQuery (b : BBox α) : CacheEvent α
  | set (key : α × α × α × α) : CacheEvent α
  deriving DecidableEq, Repr

/-- Embedding of `FuelOptimizer.find_stations_in_bounding_box`, returning the candidate
stations together with the trace of cache/store events.  An empty checkpoint
list returns immediately before any cache or store access; a cached value is
used only when truthy (present and non-empty, Python's
`if cached_stations:`); otherwise one range query runs and its result is
cached. -/
def find_stations_in_bounding_box [FloorRing α] (opt : FuelOptimizer α)
    (db : List (Station α)) (cache : Cache α) (cps : List (α × α)) :
    List (Station α) × List (CacheEvent α) :=
  match cps with
  | [] => ([], [])
  | cp :: rest =>
    let b := bboxOf cp rest
    let key := cacheKey b
    match cache key with
    | some v =>
      if v ≠ [] then (v, [CacheEvent.get key])
      else
        (range_query db b opt.buffer_degrees,
         [CacheEvent.get key, CacheEvent.storeQuery b, CacheEvent.set key])
    | none =>
      (range_query db b opt.buffer_degrees,
       [CacheEvent.get key, CacheEvent.storeQuery b, CacheEvent.set key])

/-- Embedding of `FuelOptimizer.optimize_fuel_stops`: plan the checkpoints, return
`([], 0, [])` immediately when there are none, otherwise locate candidates
once and select per checkpoint; the locator's event trace is returned
alongside the result triple. -/
def optimize_fuel_stops [FloorRing α] (opt : FuelOptimizer α)
    (dist : α × α → α × α → α) (db : List (Station α)) (cache : Cache α)
    (route_distance : α) (steps : List (Step α)) (geo : List (α × α)) :
    (List (FuelStop α) × α × List (α × α)) × List (CacheEvent α) :=
  match calculate_check_points opt route_distance steps geo with
  | [] => (([], 0, []), [])
  | cp :: rest =>
    let bs := find_stations_in_bounding_box opt db cache (cp :: rest)
    let fc := find_nearest_cheapest_stations opt dist (cp :: rest) bs.1
    ((fc.1, fc.2, cp :: rest), bs.2)

/-- Claim C8: with zero steps the planner yields no checkpoints and
`optimize_fuel_stops` returns `([], 0, [])`; more generally, whenever the
planner yields no checkpoints, `optimize_fuel_stops` returns `([], 0, [])`
with an empty event trace — no station-store query and no cache access. -/
theorem C8_no_checkpoints (opt : FuelOptimizer ℚ) (dist : ℚ × ℚ → ℚ × ℚ → ℚ)
    (db : List (Station ℚ)) (cache : Cache ℚ) (rd : ℚ) (geo : List (ℚ × ℚ)) :
    (calculate_check_points opt rd [] geo = [] ∧
      optimize_fuel_stops opt dist db cache rd [] geo = (([], 0, []), [])) ∧
    ∀ steps : List (Step ℚ), calculate_check_points opt rd steps geo = [] →
      optimize_fuel_stops opt dist db cache rd steps geo = (([], 0, []), []) := by
  have hempty : calculate_check_points opt rd ([] : List (Step ℚ)) geo = [] := by
    simp [calculate_check_points]
  have hgen : ∀ steps : List (Step ℚ), calculate_check_points opt rd steps geo = [] →
      optimize_fuel_stops opt dist db cache rd steps geo = (([], 0, []), []) := by
    intro steps h
    simp only [optimize_fuel_stops, h]
  exact ⟨⟨hempty, hgen [] hempty⟩, hgen⟩

/-- Witness for C8: a single short step produces no checkpoints and the
optimizer returns `([], 0, [])` without touching store or cache. -/
theorem C8_no_checkpoints_witness :
    optimize_fuel_stops (FuelOptimizer.init (10 : ℚ) 400 15) distOne [] (fun _ => none) 0
      [⟨150, [0]⟩] [] = (([], 0, []), []) :=
  (C8_no_checkpoints (FuelOptimizer.init 10 400 15) distOne [] (fun _ => none) 0 []).2
    [⟨150, [0]⟩] (by norm_num [calculate_check_points, FuelOptimizer.init])

/-- Cheap station just outside the latitude range queried for the origin
checkpoint, but inside the one queried for checkpoint `(1/50000, 0)`. -/
def stEdge : Station ℚ := ⟨"Edge", 1, 5/23 + 1/100000, 0, "CityE", "ST"⟩

/-- Expensive station at the origin, inside both query ranges. -/
def stOrigin : Station ℚ := ⟨"Origin", 5, 0, 0, "CityO", "ST"⟩

/-- Station database for the C9 scenario. -/
def dbC9 : List (Station ℚ) := [stOrigin, stEdge]

/-- A cache holding, under the rounded key `(0, 0, 0, 0)`, exactly what the
store returns for the bounding box of the origin checkpoint. -/
def cacheC9 : Cache ℚ := fun k =>
  if k = ((0 : ℚ), (0 : ℚ), (0 : ℚ), (0 : ℚ)) then some [stOrigin] else none

/-- One step of distance 400 whose last waypoint resolves to the checkpoint
`(1/50000, 0)`. -/
def stepsC9 : List (Step ℚ) := [⟨400, [0]⟩]

/-- Geometry for the C9 scenario, one `(lng, lat)` pair. -/
def geoC9 : List (ℚ × ℚ) := [(0, 1/50000)]

/-- The premise of claim C9: every cached value was previously returned by
the station store for some checkpoint set whose bounding box has the same
cache key. -/
def cacheConsistentSameKey [FloorRing α] (opt : FuelOptimizer α)
    (db : List (Station α)) (cache : Cache α) : Prop :=
  ∀ k v, cache k = some v →
    ∃ cp rest, cacheKey (bboxOf cp rest) = k ∧
      v = range_query db (bboxOf cp rest) opt.buffer_degrees

lemma optC9hit :
    (optimize_fuel_stops (FuelOptimizer.init (10 : ℚ) 400 15) distOne dbC9 cacheC9
        400 stepsC9 geoC9).1 =
      ([mkFuelStop stOrigin 1], 200, [(1/50000, 0)]) := by
  norm_num [optimize_fuel_stops, calculate_check_points, stepsC9, geoC9, stepCheckpoint,
    FuelOptimizer.init, find_stations_in_bounding_box, bboxOf, cacheKey, round4, round_eq,
    cacheC9, find_nearest_cheapest_stations, selectForCheckpoint, nearbyStations, pickBest,
    stableMin, List.filterMap_cons, abs_of_nonneg, stOrigin, mkFuelStop, distOne]

lemma optC9miss :
    (optimize_fuel_stops (FuelOptimizer.init (10 : ℚ) 400 15) distOne dbC9 (fun _ => none)
        400 stepsC9 geoC9).1 =
      ([mkFuelStop stEdge 1], 40, [(1/50000, 0)]) := by
  norm_num [optimize_fuel_stops, calculate_check_points, stepsC9, geoC9, stepCheckpoint,
    FuelOptimizer.init, find_stations_in_bounding_box, bboxOf, cacheKey, round4, round_eq,
    range_query, dbC9, find_nearest_cheapest_stations, selectForCheckpoint, nearbyStations,
    pickBest, stableMin, keyLt, List.filterMap_cons, abs_of_nonneg, abs_le, stOrigin, stEdge,
    mkFuelStop, distOne]

/-- Claim C9 counterexample: the cache key rounds the bounding-box corners to
four decimal places, so a value cached by a run whose bounding box differs
only within rounding (here the box of checkpoint `(0, 0)`) is served for the
current box (checkpoint `(1/50000, 0)`).  The cache satisfies C9's premise —
its one value is the store's answer for a box with the same key — yet it
hides the cheaper in-range station and changes both the chosen stops and the
total cost relative to a run whose cache always misses. -/
theorem C9_counterexample :
    cacheConsistentSameKey (FuelOptimizer.init (10 : ℚ) 400 15) dbC9 cacheC9 ∧
    (optimize_fuel_stops (FuelOptimizer.init (10 : ℚ) 400 15) distOne dbC9 cacheC9
        400 stepsC9 geoC9).1 ≠
      (optimize_fuel_stops (FuelOptimizer.init (10 : ℚ) 400 15) distOne dbC9 (fun _ => none)
        400 stepsC9 geoC9).1 := by
  constructor
  · intro k v hkv
    unfold cacheC9 at hkv
    split_ifs at hkv with hk
    · rw [Option.some.injEq] at hkv
      refine ⟨(0, 0), [], ?_, ?_⟩
      · rw [hk]
        norm_num [cacheKey, bboxOf, round4, round_eq]
      · rw [← hkv]
        norm_num [range_query, bboxOf, FuelOptimizer.init, dbC9, stOrigin, stEdge]
  · rw [optC9hit, optC9miss]
    intro h
    have h2 := congrArg (fun t => t.2.1) h
    norm_num at h2

/-- C9 amended: if the value cached under the key of the current run's
bounding box is absent, empty (falsy in Python), or exactly the store's
answer for that exact bounding box, then the optimizer's result triple is the
same as with an always-missing cache — the cache then affects only whether
the store is queried.  With only key-equality (C9 as stated) this fails, see
the counterexample. -/
theorem C9_amended (opt : FuelOptimizer ℚ) (dist : ℚ × ℚ → ℚ × ℚ → ℚ)
    (db : List (Station ℚ)) (cache : Cache ℚ) (rd : ℚ) (steps : List (Step ℚ))
    (geo : List (ℚ × ℚ))
    (h : ∀ cp rest, calculate_check_points opt rd steps geo = cp :: rest →
      cache (cacheKey (bboxOf cp rest)) = none ∨
      cache (cacheKey (bboxOf cp rest)) = some [] ∨
      cache (cacheKey (bboxOf cp rest)) =
        some (range_query db (bboxOf cp rest) opt.buffer_degrees)) :
    (optimize_fuel_stops opt dist db cache rd steps geo).1 =
      (optimize_fuel_stops opt dist db (fun _ => none) rd steps geo).1 := by
  cases hcp : calculate_check_points opt rd steps geo with
  | nil => simp only [optimize_fuel_stops, hcp]
  | cons cp rest =>
    have hs : (find_stations_in_bounding_box opt db cache (cp :: rest)).1 =
        (find_stations_in_bounding_box opt db (fun _ => none) (cp :: rest)).1 := by
      rcases h cp rest hcp with h0 | h0 | h0
      · simp [find_stations_in_bounding_box, h0]
      · simp [find_stations_in_bounding_box, h0]
      · simp only [find_stations_in_bounding_box, h0]
        split <;> rfl
    simp only [optimize_fuel_stops, hcp]
    rw [hs]

/-- Witness for C9 amended, with the always-missing cache on both sides. -/
theorem C9_amended_witness :
    (optimize_fuel_stops (FuelOptimizer.init (10 : ℚ) 400 15) distOne dbC9 (fun _ => none)
        400 stepsC9 geoC9).1 =
      (optimize_fuel_stops (FuelOptimizer.init (10 : ℚ) 400 15) distOne dbC9 (fun _ => none)
        400 stepsC9 geoC9).1 :=
  C9_amended (FuelOptimizer.init 10 400 15) distOne dbC9 (fun _ => none) 400 stepsC9 geoC9
    (fun _ _ _ => Or.inl rfl)

/-- Claim C6 counterexample: constructing the optimizer with an all-negative
configuration succeeds and just stores the values — there is no fail-fast
validation in `FuelOptimizer.__init__`. -/
theorem C6_counterexample :
    FuelOptimizer.init (-1 : ℚ) (-400) (-15) = ⟨-1, -400, -15, (-15) / 69⟩ :=
  rfl

/-- C6 amended: construction never fails; for every configuration, including
non-positive values, `__init__` stores the three parameters unchanged and
sets `buffer_degrees = search_radius / 69`.  (The fail-fast validation the
spec describes does not exist in the code.) -/
theorem C6_amended (mpg seg rad : ℚ) :
    FuelOptimizer.init mpg seg rad = ⟨mpg, seg, rad, rad / 69⟩ :=
  rfl

/-- Degrees to radians. -/
noncomputable def deg2rad (x : ℝ) : ℝ := x * Real.pi / 180

/-- Mean Earth radius in miles: 6371.009 km at 1609.344 metres per mile. -/
noncomputable def earthRadiusMiles : ℝ := 6371009 / 1609.344

/-- Modelled from the spec: "Geodesic distance: great-circle distance between
two latitude/longitude points, in miles" — the glossary's definition of the
distance the code obtains from the external geopy library — as the
central-angle formula on the mean-radius sphere, points given as
`(latitude, longitude)` in degrees. -/
noncomputable def greatCircleMiles (p q : ℝ × ℝ) : ℝ :=
  earthRadiusMiles * Real.arccos
    (Real.sin (deg2rad p.1) * Real.sin (deg2rad q.1) +
     Real.cos (deg2rad p.1) * Real.cos (deg2rad q.1) *
       Real.cos (deg2rad p.2 - deg2rad q.2))

lemma earthRadius_pos : (0 : ℝ) < earthRadiusMiles := by
  unfold earthRadiusMiles; norm_num

lemma arccos_antitone {x y : ℝ} (h : x ≤ y) : Real.arccos y ≤ Real.arccos x := by
  rw [Real.arccos_eq_pi_div_two_sub_arcsin, Real.arccos_eq_pi_div_two_sub_arcsin]
  have := Real.monotone_arcsin h
  linarith

/-- Station across the pole from the checkpoint `(89.95, 0)`: its latitude is
also `89.95°` but its longitude is `180°`. -/
noncomputable def stPole : Station ℝ := ⟨"Pole", 3, 8995/100, 180, "CityP", "ST"⟩

lemma pole_inner :
    Real.sin (deg2rad (8995/100)) * Real.sin (deg2rad (8995/100)) +
      Real.cos (deg2rad (8995/100)) * Real.cos (deg2rad (8995/100)) *
        Real.cos (deg2rad 0 - deg2rad 180) = Real.cos (Real.pi / 1800) := by
  have h1 : deg2rad 0 - deg2rad 180 = -Real.pi := by unfold deg2rad; ring
  rw [h1, Real.cos_neg, Real.cos_pi]
  have h2 : Real.sin (deg2rad (8995/100)) * Real.sin (deg2rad (8995/100)) +
      Real.cos (deg2rad (8995/100)) * Real.cos (deg2rad (8995/100)) * (-1) =
      -(Real.cos (deg2rad (8995/100)) ^ 2 - Real.sin (deg2rad (8995/100)) ^ 2) := by
    ring
  rw [h2, ← Real.cos_two_mul', ← Real.cos_pi_sub]
  congr 1
  unfold deg2rad
  ring

lemma pole_dist_le :
    greatCircleMiles ((8995/100 : ℝ), 0) (8995/100, 180) ≤ 15 := by
  unfold greatCircleMiles
  dsimp only
  rw [pole_inner, Real.arccos_cos (by positivity)
    (div_le_self (le_of_lt Real.pi_pos) (by norm_num))]
  have hpi15 : Real.pi < 3.15 := Real.pi_lt_d2
  have hR : earthRadiusMiles ≤ 3959 := by unfold earthRadiusMiles; norm_num
  have h1 : earthRadiusMiles * Real.pi ≤ 3959 * 3.15 :=
    mul_le_mul hR (le_of_lt hpi15) (le_of_lt Real.pi_pos) (by norm_num)
  nlinarith

/-- Claim C5 counterexample: the station `stPole` is about 6.9 great-circle
miles from the checkpoint `(89.95, 0)` — well within `search_radius = 15` —
yet the rectangular prefilter rejects it, because its longitude differs by
`180 > 15/69` degrees, and the selector consequently never considers it.  A
station within `search_radius` IS excluded from selection by the prefilter,
so the prefilter is not over-inclusive. -/
theorem C5_counterexample :
    greatCircleMiles ((8995/100 : ℝ), 0) (stPole.latitude, stPole.longitude) ≤
        (FuelOptimizer.init (10 : ℝ) 400 15).search_radius ∧
    selectForCheckpoint (FuelOptimizer.init (10 : ℝ) 400 15) greatCircleMiles
        ((8995/100 : ℝ), 0) [stPole] = none := by
  constructor
  · have := pole_dist_le
    simpa [stPole, FuelOptimizer.init] using this
  · norm_num [selectForCheckpoint, nearbyStations, pickBest, List.filterMap_cons,
      stPole, FuelOptimizer.init, abs_of_nonneg]

/-- C5 amended: the prefilter is over-inclusive along the latitude axis — any
candidate within great-circle `search_radius` miles of a checkpoint satisfies
the latitude half of the prefilter, `|Δlat| ≤ search_radius / 69 =
buffer_degrees` — but not along longitude (see the counterexample), so the
exact geodesic filter decides membership only among prefilter survivors
rather than among all candidates within the radius. -/
theorem C5_amended (s φ1 lng1 φ2 lng2 : ℝ) (h1 : |φ1| ≤ 90) (h2 : |φ2| ≤ 90)
    (hd : greatCircleMiles (φ1, lng1) (φ2, lng2) ≤ s) :
    |φ1 - φ2| ≤ (FuelOptimizer.init (1 : ℝ) 1 s).buffer_degrees := by
  have hpi : (0:ℝ) < Real.pi := Real.pi_pos
  have hb1 := abs_le.mp h1
  have hb2 := abs_le.mp h2
  have ha1 : deg2rad φ1 ∈ Set.Icc (-(Real.pi/2)) (Real.pi/2) := by
    constructor <;> (unfold deg2rad; nlinarith [hb1.1, hb1.2])
  have ha2 : deg2rad φ2 ∈ Set.Icc (-(Real.pi/2)) (Real.pi/2) := by
    constructor <;> (unfold deg2rad; nlinarith [hb2.1, hb2.2])
  have hca : 0 ≤ Real.cos (deg2rad φ1) := Real.cos_nonneg_of_mem_Icc ha1
  have hcb : 0 ≤ Real.cos (deg2rad φ2) := Real.cos_nonneg_of_mem_Icc ha2
  set a := deg2rad φ1 with hadef
  set b := deg2rad φ2 with hbdef
  have hinner : ∀ c : ℝ, -1 ≤ c → c ≤ 1 →
      Real.sin a * Real.sin b + Real.cos a * Real.cos b * c ≤ Real.cos (a - b) := by
    intro c hc1 hc2
    rw [Real.cos_sub]
    nlinarith [mul_nonneg hca hcb]
  have habs_pi : |a - b| ≤ Real.pi := by
    rcases ha1 with ⟨ha1l, ha1r⟩
    rcases ha2 with ⟨ha2l, ha2r⟩
    rw [abs_sub_le_iff]
    constructor <;> linarith
  have harc : |a - b| ≤ Real.arccos (Real.sin a * Real.sin b +
      Real.cos a * Real.cos b * Real.cos (deg2rad lng1 - deg2rad lng2)) := by
    have h5 := arccos_antitone
      (hinner (Real.cos (deg2rad lng1 - deg2rad lng2))
        (Real.neg_one_le_cos _) (Real.cos_le_one _))
    rw [← Real.cos_abs (a - b), Real.arccos_cos (abs_nonneg _) habs_pi] at h5
    exact h5
  have hgc : earthRadiusMiles * |a - b| ≤ s := by
    refine le_trans ?_ hd
    unfold greatCircleMiles
    dsimp only
    exact mul_le_mul_of_nonneg_left harc (le_of_lt earthRadius_pos)
  have hconv : |a - b| = Real.pi / 180 * |φ1 - φ2| := by
    rw [hadef, hbdef]
    unfold deg2rad
    rw [show φ1 * Real.pi / 180 - φ2 * Real.pi / 180 = Real.pi / 180 * (φ1 - φ2) by ring]
    rw [abs_mul, abs_of_pos (by positivity : (0:ℝ) < Real.pi / 180)]
  have hRpi : (12420 : ℝ) ≤ earthRadiusMiles * Real.pi := by
    have hp6 : (3.141592 : ℝ) < Real.pi := Real.pi_gt_d6
    have hRlo : (3958.7 : ℝ) ≤ earthRadiusMiles := by unfold earthRadiusMiles; norm_num
    nlinarith
  have hu : 0 ≤ |φ1 - φ2| := abs_nonneg _
  rw [hconv] at hgc
  show |φ1 - φ2| ≤ s / 69
  rw [le_div_iff (by norm_num : (0:ℝ) < 69)]
  nlinarith [mul_le_mul_of_nonneg_right hRpi hu]

lemma greatCircle_zero : greatCircleMiles ((0:ℝ), 0) (0, 0) = 0 := by
  unfold greatCircleMiles deg2rad
  norm_num [Real.arccos_one]

/-- Witness for C5 amended at the origin checkpoint and station. -/
theorem C5_amended_witness :
    |(0:ℝ) - 0| ≤ (FuelOptimizer.init (1 : ℝ) 1 15).buffer_degrees :=
  C5_amended 15 0 0 0 0 (by norm_num) (by norm_num)
    (by rw [greatCircle_zero]; norm_num)
